import Mathlib

/-!
Verification of the lazyclaw data-acquisition core against its specification.

The Go sources are shallowly embedded: Go strings become `List Char`
(byte-level operations are modelled at ASCII fidelity), `time.Time` values
stored in events become an explicit sum of "parsed RFC3339 instant" and
"receipt time", channels/processes of the follow machinery become an explicit
sequential state machine driven the way the single-threaded controller drives
it, and `encoding/json` decoding of the log-line struct is implemented as an
executable JSON parser.
-/

namespace Lazyclaw

/-! ## Go string primitives (strings.TrimSpace, strings.Index, strings.ToLower) -/

/-- Go `unicode.IsSpace` restricted to the ASCII whitespace characters
(space, tab, newline, vertical tab, form feed, carriage return). -/
def isGoSpace (c : Char) : Bool :=
  c = ' ' || c = '\t' || c = '\n' || c = '\x0b' || c = '\x0c' || c = '\r'

/-- JSON interelement whitespace (RFC 8259): space, tab, newline, carriage return. -/
def isJsonWs (c : Char) : Bool :=
  c = ' ' || c = '\t' || c = '\n' || c = '\r'

/-- `strings.TrimLeft` for whitespace. -/
def goTrimLeft (s : List Char) : List Char :=
  s.dropWhile isGoSpace

/-- `strings.TrimRight` for whitespace. -/
def goTrimRight (s : List Char) : List Char :=
  (s.reverse.dropWhile isGoSpace).reverse

/-- `strings.TrimSpace`. -/
def goTrimSpace (s : List Char) : List Char :=
  goTrimLeft (goTrimRight s)

/-- `strings.Index(s, string(c))` for a one-character needle:
index of the first occurrence, or `none` for Go's `-1`. -/
def goIndexOf (s : List Char) (c : Char) : Option Nat :=
  match s with
  | [] => none
  | x :: xs => if x = c then some 0 else (goIndexOf xs c).map (· + 1)

/-- ASCII branch of `strings.ToLower` on one character. -/
def toLowerChar (c : Char) : Char :=
  if 'A' ≤ c ∧ c ≤ 'Z' then Char.ofNat (c.toNat + 32) else c

/-- `strings.ToLower`. -/
def toLowerStr (s : List Char) : List Char :=
  s.map toLowerChar

def isDigitChar (c : Char) : Bool :=
  '0' ≤ c && c ≤ '9'

/-! ## JSON values and a parser mirroring `encoding/json` syntax -/

/-- A JSON value. Number literals are kept as their source text: the log-line
decoder only needs to know a value is not a string. -/
inductive Json where
  | null
  | bool (b : Bool)
  | num (lit : List Char)
  | str (s : List Char)
  | arr (elems : List Json)
  | obj (members : List (List Char × Json))

/-- Skip JSON whitespace. -/
def skipWs (s : List Char) : List Char :=
  s.dropWhile isJsonWs

/-- Single-character JSON string escapes. -/
def escMap (c : Char) : Option Char :=
  if c = '"' then some '"'
  else if c = '\\' then some '\\'
  else if c = '/' then some '/'
  else if c = 'b' then some '\x08'
  else if c = 'f' then some '\x0c'
  else if c = 'n' then some '\n'
  else if c = 'r' then some '\r'
  else if c = 't' then some '\t'
  else none

def hexVal (c : Char) : Option Nat :=
  if isDigitChar c then some (c.toNat - 48)
  else if 'a' ≤ c ∧ c ≤ 'f' then some (c.toNat - 87)
  else if 'A' ≤ c ∧ c ≤ 'F' then some (c.toNat - 55)
  else none

/-- Parse the body of a JSON string after the opening quote; returns the
decoded content and the input remaining after the closing quote. -/
def parseStringBody (fuel : Nat) (s : List Char) : Option (List Char × List Char) :=
  match fuel with
  | 0 => none
  | fuel' + 1 =>
    match s with
    | [] => none
    | c :: rest =>
      if c = '"' then some ([], rest)
      else if c = '\\' then
        match rest with
        | [] => none
        | e :: rest2 =>
          if e = 'u' then
            match rest2 with
            | h1 :: h2 :: h3 :: h4 :: rest3 =>
              match hexVal h1, hexVal h2, hexVal h3, hexVal h4 with
              | some v1, some v2, some v3, some v4 =>
                (parseStringBody fuel' rest3).map
                  (fun p => (Char.ofNat (((v1 * 16 + v2) * 16 + v3) * 16 + v4) :: p.1, p.2))
              | _, _, _, _ => none
            | _ => none
          else
            match escMap e with
            | some d => (parseStringBody fuel' rest2).map (fun p => (d :: p.1, p.2))
            | none => none
      else if c.toNat < 32 then none
      else (parseStringBody fuel' rest).map (fun p => (c :: p.1, p.2))

/-- Optional exponent part of a JSON number, given the literal read so far. -/
def parseExpPart (lit : List Char) (s : List Char) : Option (List Char × List Char) :=
  match s with
  | 'e' :: r =>
    match r with
    | '+' :: r2 =>
      let ds := r2.takeWhile isDigitChar
      if ds = [] then none else some (lit ++ 'e' :: '+' :: ds, r2.dropWhile isDigitChar)
    | '-' :: r2 =>
      let ds := r2.takeWhile isDigitChar
      if ds = [] then none else some (lit ++ 'e' :: '-' :: ds, r2.dropWhile isDigitChar)
    | _ =>
      let ds := r.takeWhile isDigitChar
      if ds = [] then none else some (lit ++ 'e' :: ds, r.dropWhile isDigitChar)
  | 'E' :: r =>
    match r with
    | '+' :: r2 =>
      let ds := r2.takeWhile isDigitChar
      if ds = [] then none else some (lit ++ 'E' :: '+' :: ds, r2.dropWhile isDigitChar)
    | '-' :: r2 =>
      let ds := r2.takeWhile isDigitChar
      if ds = [] then none else some (lit ++ 'E' :: '-' :: ds, r2.dropWhile isDigitChar)
    | _ =>
      let ds := r.takeWhile isDigitChar
      if ds = [] then none else some (lit ++ 'E' :: ds, r.dropWhile isDigitChar)
  | _ => some (lit, s)

/-- Optional fraction and exponent parts of a JSON number. -/
def parseFracPart (lit : List Char) (s : List Char) : Option (List Char × List Char) :=
  match s with
  | '.' :: r2 =>
    let ds := r2.takeWhile isDigitChar
    if ds = [] then none
    else parseExpPart (lit ++ '.' :: ds) (r2.dropWhile isDigitChar)
  | _ => parseExpPart lit s

/-- JSON number grammar: optional minus, integer part with no leading zero,
optional fraction, optional exponent. -/
def parseNumber (s : List Char) : Option (List Char × List Char) :=
  let signAndRest : List Char × List Char :=
    match s with
    | '-' :: r => (['-'], r)
    | _ => ([], s)
  let ds := signAndRest.2.takeWhile isDigitChar
  if ds = [] then none
  else if 1 < ds.length ∧ ds.head? = some '0' then none
  else parseFracPart (signAndRest.1 ++ ds) (signAndRest.2.dropWhile isDigitChar)

mutual

/-- Parse one JSON value at the head of the input (whitespace already skipped). -/
def parseValue : Nat → List Char → Option (Json × List Char)
  | 0, _ => none
  | f + 1, s =>
    match s with
    | [] => none
    | c :: rest =>
      if c = '\x7b' then
        (parseMembers f true (skipWs rest)).map (fun p => (Json.obj p.1, p.2))
      else if c = '[' then
        (parseElems f true (skipWs rest)).map (fun p => (Json.arr p.1, p.2))
      else if c = '"' then
        (parseStringBody (rest.length + 1) rest).map (fun p => (Json.str p.1, p.2))
      else if c = 't' then
        match rest with
        | 'r' :: 'u' :: 'e' :: r => some (Json.bool true, r)
        | _ => none
      else if c = 'f' then
        match rest with
        | 'a' :: 'l' :: 's' :: 'e' :: r => some (Json.bool false, r)
        | _ => none
      else if c = 'n' then
        match rest with
        | 'u' :: 'l' :: 'l' :: r => some (Json.null, r)
        | _ => none
      else if c = '-' ∨ isDigitChar c then
        (parseNumber (c :: rest)).map (fun p => (Json.num p.1, p.2))
      else none

/-- Parse object members up to and including the closing brace.
`allowClose` is true right after the opening brace (where an immediate close
is legal) and false after a comma (where Go rejects a trailing comma). -/
def parseMembers : Nat → Bool → List Char →
    Option (List (List Char × Json) × List Char)
  | 0, _, _ => none
  | f + 1, allowClose, s =>
    match s with
    | [] => none
    | c :: rest =>
      if c = '\x7d' then
        if allowClose then some ([], rest) else none
      else if c = '"' then
        match parseStringBody (rest.length + 1) rest with
        | none => none
        | some (key, r1) =>
          match skipWs r1 with
          | ':' :: r2 =>
            match parseValue f (skipWs r2) with
            | none => none
            | some (v, r3) =>
              match skipWs r3 with
              | ',' :: r4 =>
                (parseMembers f false (skipWs r4)).map
                  (fun p => ((key, v) :: p.1, p.2))
              | '\x7d' :: r4 => some ([(key, v)], r4)
              | _ => none
          | _ => none
      else none

/-- Parse array elements up to and including the closing bracket. -/
def parseElems : Nat → Bool → List Char → Option (List Json × List Char)
  | 0, _, _ => none
  | f + 1, allowClose, s =>
    match s with
    | [] => none
    | c :: rest =>
      if c = ']' then
        if allowClose then some ([], rest) else none
      else
        match parseValue f s with
        | none => none
        | some (v, r1) =>
          match skipWs r1 with
          | ',' :: r2 => (parseElems f false (skipWs r2)).map (fun p => (v :: p.1, p.2))
          | ']' :: r2 => some ([v], r2)
          | _ => none

end

/-- Parse a complete JSON document: one value with only whitespace around it,
as `json.Unmarshal` requires. -/
def parseJsonDoc (s : List Char) : Option Json :=
  match parseValue (3 * s.length + 8) (skipWs s) with
  | some (v, rest) => if skipWs rest = [] then some v else none
  | none => none

/-! ## Decoding a log line into the anonymous struct of `parseLogLine`

The Go target struct is
`struct { Time, Level, Msg, Message string }` with JSON tags
`time`, `level`, `msg`, `message`. -/

/-- The decoded form of the structured-JSON log-line convention. -/
structure JsonLog where
  time : List Char
  level : List Char
  msg : List Char
  message : List Char
deriving DecidableEq

/-- `encoding/json` matches object keys to struct fields case-insensitively. -/
def jsonKeyMatches (k : List Char) (fieldName : List Char) : Bool :=
  toLowerStr k = fieldName

/-- Apply one object member to the struct, as `encoding/json` does: unknown
keys are ignored, a JSON null under any key has no effect and produces no
error, a known key whose value is neither a string nor null is a decode
error, and a later duplicate key overwrites an earlier one. -/
def applyLogField (j : JsonLog) (k : List Char) (v : Json) : Option JsonLog :=
  if jsonKeyMatches k "time".data then
    match v with
    | Json.str s => some { j with time := s }
    | Json.null => some j
    | _ => none
  else if jsonKeyMatches k "level".data then
    match v with
    | Json.str s => some { j with level := s }
    | Json.null => some j
    | _ => none
  else if jsonKeyMatches k "msg".data then
    match v with
    | Json.str s => some { j with msg := s }
    | Json.null => some j
    | _ => none
  else if jsonKeyMatches k "message".data then
    match v with
    | Json.str s => some { j with message := s }
    | Json.null => some j
    | _ => none
  else some j

def extractLogFields (j : JsonLog) (kvs : List (List Char × Json)) : Option JsonLog :=
  match kvs with
  | [] => some j
  | (k, v) :: rest =>
    match applyLogField j k v with
    | some j' => extractLogFields j' rest
    | none => none

/-- `json.Unmarshal(line, &jsonLog)`: succeeds exactly on a JSON document that
is an object whose known keys hold strings or nulls (or the document `null`,
which leaves the struct at its zero value). -/
def decodeLogStruct (line : List Char) : Option JsonLog :=
  match parseJsonDoc line with
  | some (Json.obj kvs) => extractLogFields ⟨[], [], [], []⟩ kvs
  | some Json.null => some ⟨[], [], [], []⟩
  | _ => none

/-! ## RFC 3339 timestamps (`time.Parse(time.RFC3339, s)`) -/

/-- A parsed RFC 3339 timestamp. -/
structure Rfc3339Time where
  year : Nat
  month : Nat
  day : Nat
  hour : Nat
  minute : Nat
  second : Nat
  fracDigits : List Char
  offsetMinutes : Int
deriving DecidableEq

def digitVal (c : Char) : Option Nat :=
  if isDigitChar c then some (c.toNat - 48) else none

def num2 (a b : Char) : Option Nat :=
  match digitVal a, digitVal b with
  | some x, some y => some (10 * x + y)
  | _, _ => none

def num4 (a b c d : Char) : Option Nat :=
  match num2 a b, num2 c d with
  | some x, some y => some (100 * x + y)
  | _, _ => none

def isLeapYear (y : Nat) : Bool :=
  (y % 4 = 0 && y % 100 ≠ 0) || y % 400 = 0

def daysInMonth (y m : Nat) : Nat :=
  if m = 2 then (if isLeapYear y then 29 else 28)
  else if m = 4 ∨ m = 6 ∨ m = 9 ∨ m = 11 then 30
  else 31

/-- The timezone suffix: `Z` or `±hh:mm`, which must end the input. -/
def parseTzSuffix (s : List Char) : Option Int :=
  match s with
  | ['Z'] => some 0
  | '+' :: h1 :: h2 :: ':' :: m1 :: m2 :: [] =>
    match num2 h1 h2, num2 m1 m2 with
    | some oh, some om =>
      if oh ≤ 23 ∧ om ≤ 59 then some ((oh * 60 + om : Nat) : Int) else none
    | _, _ => none
  | '-' :: h1 :: h2 :: ':' :: m1 :: m2 :: [] =>
    match num2 h1 h2, num2 m1 m2 with
    | some oh, some om =>
      if oh ≤ 23 ∧ om ≤ 59 then some (-((oh * 60 + om : Nat) : Int)) else none
    | _, _ => none
  | _ => none

/-- Optional fractional seconds, then the timezone suffix. -/
def parseFracAndTz (s : List Char) : Option (List Char × Int) :=
  match s with
  | '.' :: r =>
    let ds := r.takeWhile isDigitChar
    if ds = [] then none
    else (parseTzSuffix (r.dropWhile isDigitChar)).map (fun off => (ds, off))
  | _ => (parseTzSuffix s).map (fun off => ([], off))

/-- `time.Parse(time.RFC3339, s)`: layout `2006-01-02T15:04:05Z07:00` with
optional fractional seconds, with the field range checks Go performs. -/
def parseRFC3339 (s : List Char) : Option Rfc3339Time :=
  match s with
  | y1 :: y2 :: y3 :: y4 :: '-' :: m1 :: m2 :: '-' :: d1 :: d2 :: 'T' ::
      h1 :: h2 :: ':' :: n1 :: n2 :: ':' :: s1 :: s2 :: rest =>
    match num4 y1 y2 y3 y4, num2 m1 m2, num2 d1 d2, num2 h1 h2, num2 n1 n2, num2 s1 s2 with
    | some yr, some mo, some dy, some hr, some mi, some se =>
      if 1 ≤ mo ∧ mo ≤ 12 ∧ 1 ≤ dy ∧ dy ≤ daysInMonth yr mo ∧
          hr ≤ 23 ∧ mi ≤ 59 ∧ se ≤ 59 then
        (parseFracAndTz rest).map (fun p =>
          { year := yr, month := mo, day := dy, hour := hr, minute := mi,
            second := se, fracDigits := p.1, offsetMinutes := p.2 })
      else none
    | _, _, _, _, _, _ => none
  | _ => none

/-! ## Log events and `parseLogLine` -/

/-- The timestamp stored in a `LogEvent`: either the instant parsed from the
line's own timestamp text, or the receipt time (`time.Now()`), which we keep
abstract as a tick count. -/
inductive LogTime where
  | receipt (now : Nat)
  | parsed (t : Rfc3339Time)
deriving DecidableEq

/-- `models.LogEvent`: timestamp, severity, source, message, raw line. -/
structure LogEvent where
  timestamp : LogTime
  level : List Char
  source : List Char
  message : List Char
  raw : List Char
deriving DecidableEq

/-- The bracketed-tag switch of `parseLogLine`: maps a lowercased tag to the
canonical level, or `none` for an unrecognized tag (which leaves the default
level in place). -/
def levelTagToLevel (s : List Char) : Option (List Char) :=
  if s = "debug".data ∨ s = "dbg".data then some "debug".data
  else if s = "info".data ∨ s = "inf".data then some "info".data
  else if s = "warn".data ∨ s = "warning".data ∨ s = "wrn".data then some "warn".data
  else if s = "error".data ∨ s = "err".data then some "error".data
  else none

/-- `parseLogLine` from `internal/gateway`: structured JSON first, then the
bracketed-tag convention on the whitespace-trimmed line, then the whole
trimmed line as an info-level message. `now` is the receipt time. -/
def parseLogLine (now : Nat) (line : List Char) : LogEvent :=
  let event : LogEvent :=
    { timestamp := LogTime.receipt now, level := "info".data, source := [],
      message := [], raw := line }
  match decodeLogStruct line with
  | some j =>
    let event := if j.level ≠ [] then { event with level := toLowerStr j.level } else event
    let event :=
      if j.msg ≠ [] then { event with message := j.msg }
      else if j.message ≠ [] then { event with message := j.message }
      else event
    if j.time ≠ [] then
      match parseRFC3339 j.time with
      | some t => { event with timestamp := LogTime.parsed t }
      | none => event
    else event
  | none =>
    let l := goTrimSpace line
    match goIndexOf l '[' with
    | some idx =>
      match goIndexOf (l.drop idx) ']' with
      | some endIdx =>
        let lv := toLowerStr ((l.drop (idx + 1)).take (endIdx - 1))
        let event :=
          match levelTagToLevel lv with
          | some recognized => { event with level := recognized }
          | none => event
        { event with message := goTrimSpace (l.drop (idx + endIdx + 1)) }
      | none => { event with message := l }
    | none => { event with message := l }

/-! ## Remote execution: SSH configuration and argument construction -/

/-- `models.SSHConfig` from the `package models` section: host, port, user,
identity file, proxy-jump host, connect timeout (seconds), and the path to
the openclaw binary on the remote host. Go's `int` fields are modelled as
`Int`. -/
structure SSHConfig where
  host : String
  port : Int
  user : String
  identityFile : String
  proxyJump : String
  connectTimeout : Int
  openClawCLI : String
deriving DecidableEq

/-- `strings.Contains(s, "@")`. -/
def containsAt (s : String) : Bool :=
  s.data.contains '@'

/-- The `ConnectTimeout` value `buildSSHArgs` writes: the configured value,
or 10 when it is zero or negative. -/
def effectiveTimeout (c : SSHConfig) : Int :=
  if c.connectTimeout ≤ 0 then 10 else c.connectTimeout

/-- The final host argument: `user@host` when a user is configured and the
host does not already carry one. -/
def hostArg (c : SSHConfig) : String :=
  if c.user ≠ "" ∧ ¬ containsAt c.host then c.user ++ "@" ++ c.host else c.host

/-- `buildSSHArgs` from `internal/gateway`. -/
def buildSSHArgs (cfg : Option SSHConfig) : List String :=
  match cfg with
  | none => []
  | some c =>
    ["-o", "BatchMode=yes"] ++
    ["-o", "StrictHostKeyChecking=accept-new"] ++
    ["-o", "ConnectTimeout=" ++ toString (effectiveTimeout c)] ++
    (if 0 < c.port then ["-p", toString c.port] else []) ++
    (if c.identityFile ≠ "" then ["-i", c.identityFile] else []) ++
    (if c.proxyJump ≠ "" then ["-J", c.proxyJump] else []) ++
    [hostArg c]

/-- `shellQuote`: wrap in single quotes, escaping embedded single quotes. -/
def shellQuote (s : String) : String :=
  "'" ++ s.replace "'" "'\\''" ++ "'"

/-- Per-argument escaping in `runSSHCommand`. -/
def escapeSSHArg (a : String) : String :=
  if a.data.contains ' ' || a.data.contains '\'' || a.data.contains '"' then
    "'" ++ a.replace "'" "'\\''" ++ "'"
  else a

/-- `CLIAdapter`'s identity fields (the cached-status fields are modelled
separately as `AdapterState`). -/
structure CLIAdapter where
  binaryPath : String
  sshConfig : Option SSHConfig
  instanceName : String
deriving DecidableEq

/-- `getBinary`. -/
def getBinary (c : CLIAdapter) : String :=
  if c.binaryPath ≠ "" then c.binaryPath else "openclaw"

/-- `IsRemote`. -/
def isRemote (c : CLIAdapter) : Bool :=
  match c.sshConfig with
  | some cfg => cfg.host ≠ ""
  | none => false

/-- The remote command string `runSSHCommand` builds: the binary followed by
the escaped arguments, wrapped in `bash -lc '...'`. -/
def remoteCommandString (c : CLIAdapter) (args : List String) : String :=
  "bash -lc " ++ shellQuote (args.foldl (fun acc a => acc ++ " " ++ escapeSSHArg a) (getBinary c))

/-- The program and argument vector `runCommand` dispatches to: the ssh
wrapper for a remote adapter, the binary itself locally. -/
def runCommandArgv (c : CLIAdapter) (args : List String) : String × List String :=
  if isRemote c then
    ("ssh", buildSSHArgs c.sshConfig ++ [remoteCommandString c args])
  else
    (getBinary c, args)

/-- The program and argument vector `FollowLogs` spawns:
`exec.CommandContext(ctx, binary, "logs", "--follow")` — read off the source,
which never consults the SSH configuration on this path. -/
def followLogsArgv (c : CLIAdapter) : String × List String :=
  (getBinary c, ["logs", "--follow"])

/-! ## StatusAdapter: `GetFullStatus` and its cache discipline -/

/-- The cached fields of `CLIAdapter` guarded by `mu`. The cache discipline
under verification is independent of the decoded payload's schema
(`models.OpenClawStatus`, a large record mirroring the CLI's wire contract),
so the state is parametric in the decoded type `σ`. -/
structure AdapterState (σ : Type) where
  lastStatus : Option σ
  lastFetched : Option Nat
  lastError : Option String
deriving DecidableEq

/-- `GetFullStatus`: the command execution result and the JSON decode of its
output are the two external effects, passed in as values (`runRes` is the
outcome of `runCommand "status" "--json"`, `decode` is `json.Unmarshal` into
`models.OpenClawStatus`, abstracted over the payload type). Returns the
updated cache and the call's result. -/
def getFullStatus {σ : Type} (st : AdapterState σ) (now : Nat)
    (runRes : Except String String) (decode : String → Except String σ) :
    AdapterState σ × Except String σ :=
  match runRes with
  | Except.error e => ({ st with lastError := some e }, Except.error e)
  | Except.ok output =>
    match decode output with
    | Except.error e =>
      let parseErr := "failed to parse status JSON: " ++ e
      ({ st with lastError := some parseErr }, Except.error parseErr)
    | Except.ok status =>
      ({ lastStatus := some status, lastFetched := some now, lastError := none },
        Except.ok status)

/-! ## InstanceCoordinator: follow sessions and the switch protocol

`startLogFollowing`, `stopLogFollowing` and `switchInstance` from the app
coordinator, driven the way the single-threaded controller executes them: a
switch clears the per-instance views, cancels the current follow session, and
issues the three commands, which run in order. A `FollowSession` records the
instance it was started for and whether its backing subprocess is live;
`running := false` models a session whose cancellation has been signalled (or
whose launch failed). -/

structure FollowSession where
  sid : Nat
  forInstance : Nat
  running : Bool
deriving DecidableEq

structure CoordState where
  selectedInstance : Nat
  current : Option FollowSession
  past : List FollowSession
  nextSid : Nat
  statusView : Option Nat
  healthView : Option Nat
  logsView : List LogEvent
  logFollowing : Bool
deriving DecidableEq

/-- The commands `switchInstance` appends, executed later by the runtime. -/
inductive UiCmd where
  | fetchStatus
  | fetchHealth
  | startFollow
deriving DecidableEq

/-- `stopLogFollowing`: cancel the current session's context (terminating its
subprocess) and clear the following flag. -/
def stopLogFollowing (s : CoordState) : CoordState :=
  { s with current := s.current.map (fun ses => { ses with running := false }),
           logFollowing := false }

/-- `startLogFollowing`: create a fresh session (channel and context) for the
currently selected instance and launch `FollowLogs`. `launchOk` is the outcome
of starting the subprocess. On failure the function does not fail: it emits
one synthetic warning-level event and leaves `logFollowing` unset. -/
def startLogFollowing (s : CoordState) (launchOk : Bool) (now : Nat)
    (errMsg : List Char) : CoordState × Option LogEvent :=
  let newSession : FollowSession :=
    { sid := s.nextSid, forInstance := s.selectedInstance, running := launchOk }
  let s' : CoordState :=
    { s with past := s.past ++ s.current.toList,
             current := some newSession,
             nextSid := s.nextSid + 1,
             logFollowing := launchOk }
  if launchOk then (s', none)
  else
    (s', some { timestamp := LogTime.receipt now, level := "warn".data,
                source := "lazyclaw".data,
                message := "Could not start log following: ".data ++ errMsg,
                raw := [] })

/-- `switchInstance`: clear the previous instance's views, stop the current
follow session, and issue status fetch, health fetch and follow start. -/
def switchInstance (s : CoordState) : CoordState × List UiCmd :=
  let s := { s with statusView := none, healthView := none, logsView := [] }
  let s := stopLogFollowing s
  (s, [UiCmd.fetchStatus, UiCmd.fetchHealth, UiCmd.startFollow])

/-- Execute one issued command against the coordinator state. -/
def execCmd (launchOk : Bool) (now : Nat) (errMsg : List Char)
    (s : CoordState) (c : UiCmd) : CoordState :=
  match c with
  | UiCmd.fetchStatus => { s with statusView := some now }
  | UiCmd.fetchHealth => { s with healthView := some now }
  | UiCmd.startFollow => (startLogFollowing s launchOk now errMsg).1

/-- One full `switchInstance` step with its issued commands run in order, as
the cooperative controller drives them. -/
def switchAndRun (launchOk : Bool) (now : Nat) (errMsg : List Char)
    (s : CoordState) : CoordState :=
  let p := switchInstance s
  p.2.foldl (execCmd launchOk now errMsg) p.1

/-- Every follow session the coordinator has ever created and still tracks. -/
def sessions (s : CoordState) : List FollowSession :=
  s.past ++ s.current.toList

/-- The sessions whose backing subprocess is live. -/
def activeSessions (s : CoordState) : List FollowSession :=
  (sessions s).filter (fun ses => ses.running)

/-- All sessions retired to the history are stopped: the bookkeeping invariant
of the switch protocol. -/
def pastAllStopped (s : CoordState) : Prop :=
  ∀ ses ∈ s.past, ses.running = false

/-- A concrete remote instance configuration used to instantiate theorems. -/
def sampleSSHConfig : SSHConfig :=
  ⟨"example.com", 22, "root", "/key", "jump", 0, ""⟩

/-! ## Claim C1: `GetFullStatus` cache discipline -/

/-- C1: on every status fetch, if command execution and JSON decode both
succeed, the cached snapshot is replaced by the decoded payload and the cached
error is cleared; if either step fails, the previous snapshot is untouched,
the new error is recorded, and the call returns an error. -/
theorem getFullStatus_cache_discipline {σ : Type} (st : AdapterState σ) (now : Nat)
    (runRes : Except String String) (decode : String → Except String σ) :
    (∀ out status, runRes = Except.ok out → decode out = Except.ok status →
      getFullStatus st now runRes decode =
        (⟨some status, some now, none⟩, Except.ok status))
    ∧ (∀ e, runRes = Except.error e →
      (getFullStatus st now runRes decode).1.lastStatus = st.lastStatus
        ∧ (getFullStatus st now runRes decode).1.lastError = some e
        ∧ (getFullStatus st now runRes decode).2 = Except.error e)
    ∧ (∀ out e, runRes = Except.ok out → decode out = Except.error e →
      (getFullStatus st now runRes decode).1.lastStatus = st.lastStatus
        ∧ (getFullStatus st now runRes decode).1.lastError =
            some ("failed to parse status JSON: " ++ e)
        ∧ (getFullStatus st now runRes decode).2 =
            Except.error ("failed to parse status JSON: " ++ e)) := by
  refine ⟨?_, ?_, ?_⟩
  · intro out status h1 h2
    subst h1
    simp [getFullStatus, h2]
  · intro e h1
    subst h1
    simp [getFullStatus]
  · intro out e h1 h2
    subst h1
    simp [getFullStatus, h2]

/-- Witness for C1 at a concrete failing and succeeding fetch. -/
theorem getFullStatus_cache_discipline_witness :
    (getFullStatus (σ := Bool) ⟨some false, some 0, none⟩ 7 (Except.error "boom")
        (fun _ => Except.ok true)).1.lastStatus = some false
      ∧ (getFullStatus (σ := Bool) ⟨some false, some 0, none⟩ 7 (Except.error "boom")
        (fun _ => Except.ok true)).1.lastError = some "boom"
      ∧ (getFullStatus (σ := Bool) ⟨some false, some 0, none⟩ 7 (Except.error "boom")
        (fun _ => Except.ok true)).2 = Except.error "boom" :=
  (getFullStatus_cache_discipline (σ := Bool) ⟨some false, some 0, none⟩ 7
    (Except.error "boom") (fun _ => Except.ok true)).2.1 "boom" rfl

/-! ## Claim C2: `FollowLogs` and the remote execution boundary -/

/-- C2: for a remote (SSH) instance, one-shot commands go through the ssh
wrapper, but `FollowLogs` spawns the configured binary directly on the local
host — the claim's required behaviour (follow via the ssh wrapper) does not
hold on the code. Evaluated at a concrete remote adapter. -/
theorem followLogs_remote_spawns_locally :
    isRemote ⟨"", some ⟨"example.com", 0, "", "", "", 0, ""⟩, "prod"⟩ = true
      ∧ followLogsArgv ⟨"", some ⟨"example.com", 0, "", "", "", 0, ""⟩, "prod"⟩ =
          ("openclaw", ["logs", "--follow"])
      ∧ (runCommandArgv ⟨"", some ⟨"example.com", 0, "", "", "", 0, ""⟩, "prod"⟩
          ["status", "--json"]).1 = "ssh"
      ∧ (followLogsArgv ⟨"", some ⟨"example.com", 0, "", "", "", 0, ""⟩, "prod"⟩).1 ≠ "ssh" := by
  refine ⟨by decide, rfl, ?_, by decide⟩
  rfl

/-! ## Claim C10: follow-launch failure is non-fatal -/

/-- C10: when launching the log-follow subprocess fails, the start operation
surfaces no hard error: it emits exactly one synthetic warning-level event
describing the failure, leaves the cached status and health views untouched,
and the instance switch still issues the status and health fetches. -/
theorem startLogFollowing_failure_synthetic_warn (s : CoordState) (now : Nat)
    (errMsg : List Char) :
    (startLogFollowing s false now errMsg).2 =
        some { timestamp := LogTime.receipt now, level := "warn".data,
               source := "lazyclaw".data,
               message := "Could not start log following: ".data ++ errMsg,
               raw := [] }
      ∧ (startLogFollowing s false now errMsg).1.statusView = s.statusView
      ∧ (startLogFollowing s false now errMsg).1.healthView = s.healthView
      ∧ (startLogFollowing s false now errMsg).1.logFollowing = false
      ∧ (switchInstance s).2 = [UiCmd.fetchStatus, UiCmd.fetchHealth, UiCmd.startFollow] :=
  ⟨rfl, rfl, rfl, rfl, rfl⟩

/-! ## Claim C3: at most one active follow session; switch idempotence -/

/-- One switch step, computed: the previous session is cancelled and retired,
a fresh session for the selected instance replaces it. -/
theorem switchAndRun_eq (b : Bool) (n : Nat) (e : List Char) (s : CoordState) :
    switchAndRun b n e s =
      { selectedInstance := s.selectedInstance,
        current := some ⟨s.nextSid, s.selectedInstance, b⟩,
        past := s.past ++ (s.current.map (fun ses => { ses with running := false })).toList,
        nextSid := s.nextSid + 1,
        statusView := some n,
        healthView := some n,
        logsView := [],
        logFollowing := b } := by
  cases b <;> rfl

/-- C3: starting from any coordinator state whose retired sessions are all
stopped, two consecutive `switchInstance` steps (with their issued commands
run to completion and no intervening events) leave exactly one active follow
session, and it belongs to the selected instance; moreover any single switch
preserves the bookkeeping invariant and leaves at most one active session
overall, hence at most one active session per instance. -/
theorem switch_idempotent_single_session (s : CoordState) (n1 n2 : Nat)
    (e1 e2 : List Char) (hp : pastAllStopped s) :
    activeSessions (switchAndRun true n2 e2 (switchAndRun true n1 e1 s)) =
        [⟨s.nextSid + 1, s.selectedInstance, true⟩]
      ∧ (∀ b n em, pastAllStopped (switchAndRun b n em s))
      ∧ (∀ b n em, (activeSessions (switchAndRun b n em s)).length ≤ 1)
      ∧ (∀ b n em i, ((activeSessions (switchAndRun b n em s)).filter
          (fun ses => ses.forInstance == i)).length ≤ 1) := by
  have hstopped : ∀ (cur : Option FollowSession)
      (ses : FollowSession),
      ses ∈ (cur.map (fun x => { x with running := false })).toList →
        ses.running = false := by
    intro cur ses hmem
    cases cur with
    | none => simp at hmem
    | some x =>
      simp [Option.toList] at hmem
      subst hmem
      rfl
  have h3 : ∀ b n em, (activeSessions (switchAndRun b n em s)).length ≤ 1 := by
    intro b n em
    rw [switchAndRun_eq]
    unfold activeSessions sessions
    simp only [Option.toList_some, List.filter_append]
    have h1 : (s.past.filter fun ses => ses.running) = [] := by
      apply List.filter_eq_nil_iff.mpr
      intro a ha
      simp [hp a ha]
    have h2 : (((s.current.map (fun ses => { ses with running := false })).toList).filter
        fun ses => ses.running) = [] := by
      apply List.filter_eq_nil_iff.mpr
      intro a ha
      simp [hstopped s.current a ha]
    cases b <;> simp [h1, h2]
  refine ⟨?_, ?_, h3, fun b n em i =>
    le_trans (List.length_filter_le _ _) (h3 b n em)⟩
  · rw [switchAndRun_eq, switchAndRun_eq]
    unfold activeSessions sessions
    simp only [Option.map_some, Option.toList_some, List.filter_append]
    have h1 : (s.past.filter fun ses => ses.running) = [] := by
      apply List.filter_eq_nil_iff.mpr
      intro a ha
      simp [hp a ha]
    have h2 : (((s.current.map (fun ses => { ses with running := false })).toList).filter
        fun ses => ses.running) = [] := by
      apply List.filter_eq_nil_iff.mpr
      intro a ha
      simp [hstopped s.current a ha]
    simp [h1, h2]
  · intro b n em
    rw [switchAndRun_eq]
    intro ses hmem
    simp only [List.mem_append] at hmem
    rcases hmem with h | h
    · exact hp ses h
    · exact hstopped s.current ses h

/-- Witness for C3 at a concrete initial coordinator state. -/
theorem switch_idempotent_single_session_witness :
    activeSessions (switchAndRun true 2 [] (switchAndRun true 1 []
        ⟨0, none, [], 0, none, none, [], false⟩)) = [⟨1, 0, true⟩] :=
  (switch_idempotent_single_session ⟨0, none, [], 0, none, none, [], false⟩ 1 2 [] []
    (by intro ses h; simp at h)).1

/-! ## Claim C5: level mapping on the structured-JSON path -/

/-- C5 counterexample: on the structured-JSON path `parseLogLine` only
lowercases the level text — the "warning" synonym and the wrn abbreviation
are not mapped to "warn" (that mapping exists only in the bracketed-tag
path), so a JSON line with level "WARNING" yields level "warning". -/
theorem parseLogLine_json_warning_not_mapped :
    (parseLogLine 0 "\x7b\"level\":\"WARNING\",\"msg\":\"x\"\x7d".data).level =
        "warning".data
      ∧ "warning".data ≠ "warn".data
      ∧ (parseLogLine 0 "\x7b\"level\":\"wrn\",\"msg\":\"x\"\x7d".data).level = "wrn".data := by
  refine ⟨by decide, by decide, by decide⟩

/-- C5 amended: on the structured-JSON path the level text is taken verbatim
and lowercased (no abbreviation or synonym normalization), and the timestamp
is parsed as RFC 3339 with fallback to receipt time when absent or
unparseable. -/
theorem parseLogLine_json_level_lowercased (now : Nat) (line : List Char)
    (j : JsonLog) (hdec : decodeLogStruct line = some j) (hlvl : j.level ≠ []) :
    (parseLogLine now line).level = toLowerStr j.level
      ∧ (parseLogLine now line).timestamp =
          (if j.time = [] then LogTime.receipt now
           else match parseRFC3339 j.time with
                | some t => LogTime.parsed t
                | none => LogTime.receipt now) := by
  by_cases hm : j.msg = [] <;> by_cases hmm : j.message = [] <;>
    by_cases ht : j.time = [] <;> cases hp : parseRFC3339 j.time <;>
      simp [parseLogLine, hdec, hlvl, hm, hmm, ht, hp]

/-- Witness for C5 (amended) at a concrete structured line. -/
theorem parseLogLine_json_level_lowercased_witness :
    (parseLogLine 4 "\x7b\"level\":\"INFO\"\x7d".data).level = toLowerStr "INFO".data :=
  (parseLogLine_json_level_lowercased 4 "\x7b\"level\":\"INFO\"\x7d".data
    ⟨[], "INFO".data, [], []⟩ (by decide) (by decide)).1

/-! ## Claim C8: the two message key names are interchangeable -/

/-- C8: parsing a structured JSON log line that carries the message under
"msg" yields the same level, message and timestamp as parsing the otherwise
identical line that carries it under "message". -/
theorem parseLogLine_msg_message_equivalent (now : Nat) (t lv m s1 s2 : List Char)
    (h1 : decodeLogStruct s1 = some ⟨t, lv, m, []⟩)
    (h2 : decodeLogStruct s2 = some ⟨t, lv, [], m⟩) :
    (parseLogLine now s1).level = (parseLogLine now s2).level
      ∧ (parseLogLine now s1).message = (parseLogLine now s2).message
      ∧ (parseLogLine now s1).timestamp = (parseLogLine now s2).timestamp := by
  by_cases hl : lv = [] <;> by_cases hm : m = [] <;> by_cases ht : t = [] <;>
    cases hp : parseRFC3339 t <;> simp [parseLogLine, h1, h2, hl, hm, ht, hp]

/-- Witness for C8 at two concrete structured lines. -/
theorem parseLogLine_msg_message_equivalent_witness :
    (parseLogLine 9 "\x7b\"time\":\"2024-01-15T10:30:45Z\",\"level\":\"info\",\"msg\":\"hi\"\x7d".data).level =
        (parseLogLine 9 "\x7b\"time\":\"2024-01-15T10:30:45Z\",\"level\":\"info\",\"message\":\"hi\"\x7d".data).level
      ∧ (parseLogLine 9 "\x7b\"time\":\"2024-01-15T10:30:45Z\",\"level\":\"info\",\"msg\":\"hi\"\x7d".data).message =
        (parseLogLine 9 "\x7b\"time\":\"2024-01-15T10:30:45Z\",\"level\":\"info\",\"message\":\"hi\"\x7d".data).message
      ∧ (parseLogLine 9 "\x7b\"time\":\"2024-01-15T10:30:45Z\",\"level\":\"info\",\"msg\":\"hi\"\x7d".data).timestamp =
        (parseLogLine 9 "\x7b\"time\":\"2024-01-15T10:30:45Z\",\"level\":\"info\",\"message\":\"hi\"\x7d".data).timestamp :=
  parseLogLine_msg_message_equivalent 9 "2024-01-15T10:30:45Z".data "info".data "hi".data
    "\x7b\"time\":\"2024-01-15T10:30:45Z\",\"level\":\"info\",\"msg\":\"hi\"\x7d".data
    "\x7b\"time\":\"2024-01-15T10:30:45Z\",\"level\":\"info\",\"message\":\"hi\"\x7d".data
    (by decide) (by decide)

/-! ## Claim C6: totality, fallback message, raw retention -/

/-- C6 counterexample: when neither convention matches, the message is the
whitespace-trimmed line, not the whole line verbatim — on the input
`" hello "` the fallback message is `"hello"`. -/
theorem parseLogLine_fallback_trims_whitespace :
    (parseLogLine 0 " hello ".data).message ≠ " hello ".data
      ∧ (parseLogLine 0 " hello ".data).message = "hello".data := by
  refine ⟨by decide, by decide⟩

/-- C6 amended: `parseLogLine` is total; the raw field always retains the
original line verbatim, and when the line is neither decodable JSON nor
carries a complete first bracket token, the event is info-level with the
whitespace-trimmed line as message and receipt time as timestamp (so a line
with no surrounding whitespace — e.g. 600 bytes of non-JSON, bracket-free
content — comes back as the full input line). -/
theorem parseLogLine_total_fallback (now : Nat) (line : List Char) :
    (parseLogLine now line).raw = line
      ∧ (decodeLogStruct line = none →
         (goIndexOf (goTrimSpace line) '[' = none
           ∨ ∃ i, goIndexOf (goTrimSpace line) '[' = some i
               ∧ goIndexOf ((goTrimSpace line).drop i) ']' = none) →
         parseLogLine now line =
           { timestamp := LogTime.receipt now, level := "info".data, source := [],
             message := goTrimSpace line, raw := line }) := by
  constructor
  · rcases hdec : decodeLogStruct line with _ | j
    · rcases hidx : goIndexOf (goTrimSpace line) '[' with _ | i
      · simp [parseLogLine, hdec, hidx]
      · rcases hend : goIndexOf ((goTrimSpace line).drop i) ']' with _ | e
        · simp [parseLogLine, hdec, hidx, hend]
        · rcases hl : levelTagToLevel
              (toLowerStr (((goTrimSpace line).drop (i + 1)).take (e - 1))) with _ | r <;>
            simp [parseLogLine, hdec, hidx, hend, hl]
    · by_cases h1 : j.level = [] <;> by_cases h2 : j.msg = [] <;>
        by_cases h3 : j.message = [] <;> by_cases h4 : j.time = [] <;>
          cases hp : parseRFC3339 j.time <;>
            simp [parseLogLine, hdec, h1, h2, h3, h4, hp]
  · intro hdec hbr
    rcases hbr with h | ⟨i, h1, h2⟩
    · simp [parseLogLine, hdec, h]
    · simp [parseLogLine, hdec, h1, h2]

set_option maxRecDepth 10000 in
/-- Witness for C6 (amended) at a 600-byte bracket-free non-JSON line. -/
theorem parseLogLine_total_fallback_witness :
    parseLogLine 3 (List.replicate 600 'a') =
      { timestamp := LogTime.receipt 3, level := "info".data, source := [],
        message := List.replicate 600 'a', raw := List.replicate 600 'a' } := by
  have h := (parseLogLine_total_fallback 3 (List.replicate 600 'a')).2 (by decide)
    (Or.inl (by decide))
  have e : goTrimSpace (List.replicate 600 'a') = List.replicate 600 'a' := by decide
  rw [e] at h
  exact h

/-! ## Claim C9: SSH connection policy -/

/-- C9: every constructed ssh argument list carries batch mode, the
accept-new host-key policy, and an explicit connect timeout equal to the
configured value or 10 when that value is zero or negative; the `-p`, `-i`
and `-J` options appear exactly when port, identity file and proxy-jump are
set. The hypothesis only rules out configuration strings that are literally
one of the option flags. -/
theorem buildSSHArgs_connection_policy (c : SSHConfig)
    (hclean : ∀ s ∈ [c.identityFile, c.proxyJump, hostArg c, toString c.port,
        "ConnectTimeout=" ++ toString (effectiveTimeout c)],
      s ≠ "-p" ∧ s ≠ "-i" ∧ s ≠ "-J") :
    "BatchMode=yes" ∈ buildSSHArgs (some c)
      ∧ "StrictHostKeyChecking=accept-new" ∈ buildSSHArgs (some c)
      ∧ ("ConnectTimeout=" ++ toString (effectiveTimeout c)) ∈ buildSSHArgs (some c)
      ∧ (c.connectTimeout ≤ 0 → "ConnectTimeout=10" ∈ buildSSHArgs (some c))
      ∧ (0 < c.connectTimeout →
          ("ConnectTimeout=" ++ toString c.connectTimeout) ∈ buildSSHArgs (some c))
      ∧ ("-p" ∈ buildSSHArgs (some c) ↔ 0 < c.port)
      ∧ ("-i" ∈ buildSSHArgs (some c) ↔ c.identityFile ≠ "")
      ∧ ("-J" ∈ buildSSHArgs (some c) ↔ c.proxyJump ≠ "") := by
  simp only [List.mem_cons, List.not_mem_nil, or_false, forall_eq_or_imp, forall_eq] at hclean
  obtain ⟨hid, hpj, hha, hpt, hct⟩ := hclean
  have a1 : ¬ ("-p" = c.identityFile) := fun h => hid.1 h.symm
  have a2 : ¬ ("-i" = c.identityFile) := fun h => hid.2.1 h.symm
  have a3 : ¬ ("-J" = c.identityFile) := fun h => hid.2.2 h.symm
  have b1 : ¬ ("-p" = c.proxyJump) := fun h => hpj.1 h.symm
  have b2 : ¬ ("-i" = c.proxyJump) := fun h => hpj.2.1 h.symm
  have b3 : ¬ ("-J" = c.proxyJump) := fun h => hpj.2.2 h.symm
  have d1 : ¬ ("-p" = hostArg c) := fun h => hha.1 h.symm
  have d2 : ¬ ("-i" = hostArg c) := fun h => hha.2.1 h.symm
  have d3 : ¬ ("-J" = hostArg c) := fun h => hha.2.2 h.symm
  have e1 : ¬ ("-p" = toString c.port) := fun h => hpt.1 h.symm
  have e2 : ¬ ("-i" = toString c.port) := fun h => hpt.2.1 h.symm
  have e3 : ¬ ("-J" = toString c.port) := fun h => hpt.2.2 h.symm
  have f1 : ¬ ("-p" = "ConnectTimeout=" ++ toString (effectiveTimeout c)) :=
    fun h => hct.1 h.symm
  have f2 : ¬ ("-i" = "ConnectTimeout=" ++ toString (effectiveTimeout c)) :=
    fun h => hct.2.1 h.symm
  have f3 : ¬ ("-J" = "ConnectTimeout=" ++ toString (effectiveTimeout c)) :=
    fun h => hct.2.2 h.symm
  have hmemCT : ("ConnectTimeout=" ++ toString (effectiveTimeout c)) ∈
      buildSSHArgs (some c) := by
    simp [buildSSHArgs]
  refine ⟨by simp [buildSSHArgs], by simp [buildSSHArgs], hmemCT, ?_, ?_, ?_, ?_, ?_⟩
  · intro h
    have e : effectiveTimeout c = 10 := by simp [effectiveTimeout, h]
    have e2 : ("ConnectTimeout=" ++ toString (effectiveTimeout c)) = "ConnectTimeout=10" := by
      rw [e]
      decide
    rw [e2] at hmemCT
    exact hmemCT
  · intro h
    have hn : ¬ c.connectTimeout ≤ 0 := by omega
    have e : effectiveTimeout c = c.connectTimeout := by simp [effectiveTimeout, hn]
    rw [e] at hmemCT
    exact hmemCT
  · by_cases hp : 0 < c.port <;> by_cases hi : c.identityFile = "" <;>
      by_cases hj : c.proxyJump = "" <;>
        simp [buildSSHArgs, hp, hi, hj, a1, b1, d1, e1, f1]
  · by_cases hp : 0 < c.port <;> by_cases hi : c.identityFile = "" <;>
      by_cases hj : c.proxyJump = "" <;>
        simp [buildSSHArgs, hp, hi, hj, a2, b2, d2, e2, f2]
  · by_cases hp : 0 < c.port <;> by_cases hi : c.identityFile = "" <;>
      by_cases hj : c.proxyJump = "" <;>
        simp [buildSSHArgs, hp, hi, hj, a3, b3, d3, e3, f3]

/-- Witness for C9 at a concrete remote configuration. -/
theorem buildSSHArgs_connection_policy_witness :
    "BatchMode=yes" ∈ buildSSHArgs (some sampleSSHConfig)
      ∧ "StrictHostKeyChecking=accept-new" ∈ buildSSHArgs (some sampleSSHConfig)
      ∧ ("ConnectTimeout=" ++ toString (effectiveTimeout sampleSSHConfig)) ∈
          buildSSHArgs (some sampleSSHConfig)
      ∧ (sampleSSHConfig.connectTimeout ≤ 0 →
          "ConnectTimeout=10" ∈ buildSSHArgs (some sampleSSHConfig))
      ∧ (0 < sampleSSHConfig.connectTimeout →
          ("ConnectTimeout=" ++ toString sampleSSHConfig.connectTimeout) ∈
            buildSSHArgs (some sampleSSHConfig))
      ∧ ("-p" ∈ buildSSHArgs (some sampleSSHConfig) ↔ 0 < sampleSSHConfig.port)
      ∧ ("-i" ∈ buildSSHArgs (some sampleSSHConfig) ↔ sampleSSHConfig.identityFile ≠ "")
      ∧ ("-J" ∈ buildSSHArgs (some sampleSSHConfig) ↔ sampleSSHConfig.proxyJump ≠ "") :=
  buildSSHArgs_connection_policy sampleSSHConfig (by decide)

/-! ## Claim C7: the bracketed-tag convention -/

theorem dropWhile_append_cons (p : Char → Bool) (xs ys : List Char) (y : Char)
    (h : p y = false) :
    (xs ++ y :: ys).dropWhile p = xs.dropWhile p ++ y :: ys := by
  induction xs with
  | nil => simp [List.dropWhile_cons, h]
  | cons a t ih => cases hpa : p a <;> simp [List.dropWhile_cons, hpa, ih]

theorem goTrimRight_append_cons (xs ys : List Char) (y : Char)
    (h : isGoSpace y = false) :
    goTrimRight (xs ++ y :: ys) = xs ++ y :: goTrimRight ys := by
  unfold goTrimRight
  have h1 : (xs ++ y :: ys).reverse = ys.reverse ++ y :: xs.reverse := by
    simp
  rw [h1, dropWhile_append_cons _ _ _ _ h]
  simp

theorem goTrimLeft_cons_of_nonspace (c : Char) (l : List Char)
    (h : isGoSpace c = false) :
    goTrimLeft (c :: l) = c :: l := by
  simp [goTrimLeft, List.dropWhile_cons, h]

/-- Trimming a line whose first `[` sits after a bracket-free prefix and that
carries a closing `]` left-trims only the prefix and right-trims only the
tail, leaving the bracket token intact. -/
theorem goTrimSpace_pre_bracket (pre tag rest : List Char) :
    goTrimSpace (pre ++ '[' :: (tag ++ ']' :: rest)) =
      goTrimLeft pre ++ '[' :: (tag ++ ']' :: goTrimRight rest) := by
  unfold goTrimSpace
  have h1 : goTrimRight (pre ++ '[' :: (tag ++ ']' :: rest)) =
      pre ++ '[' :: (tag ++ ']' :: goTrimRight rest) := by
    have h := goTrimRight_append_cons (pre ++ '[' :: tag) rest ']' (by decide)
    simp only [List.append_assoc, List.cons_append] at h
    exact h
  rw [h1]
  exact dropWhile_append_cons isGoSpace pre (tag ++ ']' :: goTrimRight rest) '[' (by decide)

theorem goIndexOf_cons_self (c : Char) (l : List Char) :
    goIndexOf (c :: l) c = some 0 := by
  simp [goIndexOf]

theorem goIndexOf_append_cons_of_notMem (xs ys : List Char) (c : Char)
    (h : c ∉ xs) :
    goIndexOf (xs ++ c :: ys) c = some xs.length := by
  induction xs with
  | nil => simp [goIndexOf]
  | cons a t ih =>
    have ha : a ≠ c := by
      intro e
      exact h (by simp [e])
    have ht : c ∉ t := fun m => h (List.mem_cons_of_mem _ m)
    simp [goIndexOf, ha, ih ht]

theorem dropWhile_idem (p : Char → Bool) (l : List Char) :
    (l.dropWhile p).dropWhile p = l.dropWhile p := by
  induction l with
  | nil => simp
  | cons a t ih => cases hpa : p a <;> simp [List.dropWhile_cons, hpa, ih]

theorem goTrimSpace_goTrimRight (l : List Char) :
    goTrimSpace (goTrimRight l) = goTrimSpace l := by
  have h : goTrimRight (goTrimRight l) = goTrimRight l := by
    unfold goTrimRight
    rw [List.reverse_reverse, dropWhile_idem]
  unfold goTrimSpace
  rw [h]

theorem drop_bracket_tail (xs R : List Char) (y : Char) :
    ('[' :: (xs ++ y :: R)).drop (xs.length + 2) = R := by
  rw [show xs.length + 2 = (xs.length + 1) + 1 from rfl]
  simp only [List.drop_succ_cons]
  rw [show xs ++ y :: R = (xs ++ [y]) ++ R from by simp,
    show xs.length + 1 = (xs ++ [y]).length from by simp]
  exact List.drop_left _ _

/-- C7: for every line that is not valid structured JSON and whose first
`[...]` token is a recognized level tag (abbreviations included),
`parseLogLine` returns that tag's level and everything after the closing
bracket, trimmed of whitespace, as the message. The line is
`pre ++ "[" ++ tag ++ "]" ++ rest` with no `[` in `pre` and no `]` in `tag`,
which is exactly what makes that bracket token the first one. -/
theorem parseLogLine_bracket_level_tag (now : Nat) (pre tag rest lvl : List Char)
    (hjson : decodeLogStruct (pre ++ '[' :: (tag ++ ']' :: rest)) = none)
    (hpre : '[' ∉ pre)
    (htag : levelTagToLevel (toLowerStr tag) = some lvl)
    (hnb : ']' ∉ tag) :
    parseLogLine now (pre ++ '[' :: (tag ++ ']' :: rest)) =
      { timestamp := LogTime.receipt now, level := lvl, source := [],
        message := goTrimSpace rest,
        raw := pre ++ '[' :: (tag ++ ']' :: rest) } := by
  have hpreA : '[' ∉ goTrimLeft pre := fun hx => hpre ((List.dropWhile_sublist _).subset hx)
  have htrim := goTrimSpace_pre_bracket pre tag rest
  have hidx1 : goIndexOf (goTrimLeft pre ++ '[' :: (tag ++ ']' :: goTrimRight rest)) '[' =
      some (goTrimLeft pre).length :=
    goIndexOf_append_cons_of_notMem _ _ _ hpreA
  have hdropk : (goTrimLeft pre ++ '[' :: (tag ++ ']' :: goTrimRight rest)).drop
      (goTrimLeft pre).length = '[' :: (tag ++ ']' :: goTrimRight rest) :=
    List.drop_left _ _
  have hnotmem : ']' ∉ '[' :: tag := by
    intro hm
    rcases List.mem_cons.mp hm with h | h
    · exact absurd h.symm (by decide)
    · exact hnb h
  have hidx2 : goIndexOf ('[' :: (tag ++ ']' :: goTrimRight rest)) ']' =
      some (tag.length + 1) := by
    have h := goIndexOf_append_cons_of_notMem ('[' :: tag) (goTrimRight rest) ']' hnotmem
    simpa using h
  have htake : ((tag ++ ']' :: goTrimRight rest).take tag.length) = tag := by
    rw [show (']' :: goTrimRight rest) = [']'] ++ goTrimRight rest from rfl]
    rw [← List.append_assoc]
    calc ((tag ++ [']']) ++ goTrimRight rest).take tag.length
        = ((tag ++ [']']).take tag.length) := by
          rw [List.take_append_of_le_length (by simp)]
      _ = tag := by
          rw [List.take_append_of_le_length (by simp)]
          simp
  have hdrop1 : (goTrimLeft pre ++ '[' :: (tag ++ ']' :: goTrimRight rest)).drop
      ((goTrimLeft pre).length + 1) = tag ++ ']' :: goTrimRight rest := by
    rw [List.drop_append 1]
    simp
  have hdrop2 : (goTrimLeft pre ++ '[' :: (tag ++ ']' :: goTrimRight rest)).drop
      ((goTrimLeft pre).length + (tag.length + 1) + 1) = goTrimRight rest := by
    rw [show (goTrimLeft pre).length + (tag.length + 1) + 1
        = (goTrimLeft pre).length + (tag.length + 2) from by omega]
    rw [List.drop_append (tag.length + 2)]
    exact drop_bracket_tail tag (goTrimRight rest) ']'
  simp only [parseLogLine, hjson, htrim, hidx1, hdropk, hidx2, Nat.add_sub_cancel,
    hdrop1, htake, htag, hdrop2, goTrimSpace_goTrimRight]

/-- Witness for C7 at the spec's concrete input (severity "warn", message
exactly "disk low") and at the source comment's prefixed format
`"2024-01-15 10:30:45 [INFO] message"`. -/
theorem parseLogLine_bracket_level_tag_witness :
    parseLogLine 0 "[WARN] disk low".data =
        { timestamp := LogTime.receipt 0, level := "warn".data, source := [],
          message := "disk low".data, raw := "[WARN] disk low".data }
      ∧ parseLogLine 0 "2024-01-15 10:30:45 [INFO] message".data =
        { timestamp := LogTime.receipt 0, level := "info".data, source := [],
          message := "message".data,
          raw := "2024-01-15 10:30:45 [INFO] message".data } := by
  constructor
  · have h := parseLogLine_bracket_level_tag 0 [] "WARN".data " disk low".data "warn".data
      (by decide) (by decide) (by decide) (by decide)
    have e1 : ([] : List Char) ++ '[' :: ("WARN".data ++ ']' :: " disk low".data) =
        "[WARN] disk low".data := by decide
    have e2 : goTrimSpace " disk low".data = "disk low".data := by decide
    rw [e1, e2] at h
    exact h
  · have h := parseLogLine_bracket_level_tag 0 "2024-01-15 10:30:45 ".data "INFO".data
      " message".data "info".data (by decide) (by decide) (by decide) (by decide)
    have e1 : "2024-01-15 10:30:45 ".data ++
        '[' :: ("INFO".data ++ ']' :: " message".data) =
        "2024-01-15 10:30:45 [INFO] message".data := by decide
    have e2 : goTrimSpace " message".data = "message".data := by decide
    rw [e1, e2] at h
    exact h

end Lazyclaw
